import Mathlib

/-!
Verification of the Action Determination & Orchestration Engine of a
VS Code GenAI agent extension. The definitions below are a shallow
embedding of the TypeScript agent module (`createAgent`,
`processAgentRequest`, `processAgentRequestStream`, `determineAction`,
`analyzeRequestKeywords`, the five action executors,
`cleanCodeContent`, `determineFileDetails`, `updateAgentConfig`,
`extractSearchTerms`).

Modelling conventions:
* Promises and `async`/`await` become a state-passing monad
  `AgentM α = World → Except String α × World`; a rejected promise is
  `Except.error`, and module-level mutations performed before a
  rejection survive it (as they do in JavaScript).
* External capabilities (the LLM backend, the file system, the editor
  host) are oracles packaged in `Env`; each call that can reject
  returns `Except String _`.  `JSON.parse` is a JavaScript runtime
  primitive, modelled as the oracle `Env.jsonParse`.
* The UI capability of this repository (`uiService.ts`) only awaits
  `vscode.window.show*Message` / `showQuickPick` / `withProgress`,
  which resolve (possibly with `undefined`) and do not reject; message
  display is therefore modelled as a total, logged effect, a quick-pick
  as a total oracle returning `Option`, and `showProgress` as running
  its task.  The caller-supplied `onToken` callback is likewise total
  and logged.
* JavaScript strings are Lean `String`s; the dynamically typed `type`
  field of an action is a plain `String`, exactly as it flows through
  the untyped `parsed.type || 'respond'` expression in the source.
* The regular expressions of the source are hand-compiled to
  executable matchers over `List Char` with the same backtracking
  semantics on the character classes involved (`\w`, `\s`, literal
  alternations, lazy `[\s\S]*?`, greedy `*`/`+`, optional groups).
-/

namespace GenAIAgent

/-! ## JavaScript string helpers -/

/-- Whitespace characters recognised by JavaScript `\s` / `trim` that can
occur in the strings this development manipulates. -/
def isJsWs (c : Char) : Bool :=
  c = ' ' || c = '\t' || c = '\n' || c = '\r' || c = '\x0b' || c = '\x0c'

/-- Word characters of the JavaScript class `[\w]`. -/
def isWordChar (c : Char) : Bool :=
  c.isAlpha || c.isDigit || c = '_'

/-- ASCII lowering, the effect of `String.prototype.toLowerCase` on the
ASCII strings that appear here. -/
def jsToLower (s : String) : String :=
  String.mk (s.data.map Char.toLower)

/-- JavaScript `String.prototype.trim`. -/
def jsTrim (s : String) : String :=
  String.mk (((s.data.dropWhile isJsWs).reverse.dropWhile isJsWs).reverse)

/-- JavaScript `haystack.includes(needle)`. -/
def strIncludes (haystack needle : String) : Bool :=
  haystack.data.tails.any (fun t => needle.data.isPrefixOf t)

/-- Split a character list at every occurrence of the separator
character, keeping empty pieces, as JavaScript `split(sep)` does for a
one-character separator. -/
def splitOnCharL (sep : Char) : List Char → List (List Char)
  | [] => [[]]
  | c :: rest =>
    match splitOnCharL sep rest with
    | [] => [[]]
    | piece :: pieces =>
      if c = sep then [] :: piece :: pieces else (c :: piece) :: pieces

/-- JavaScript `Array.prototype.join(sep)` over character lists. -/
def joinWith (sep : List Char) : List (List Char) → List Char
  | [] => []
  | [x] => x
  | x :: y :: rest => x ++ sep ++ joinWith sep (y :: rest)

/-- JavaScript `s.split(sep).pop() || dflt` as used for path basenames. -/
def lastPathComponent (s : String) (dflt : String) : String :=
  match (splitOnCharL '/' s.data).getLast? with
  | some lastPiece => if lastPiece.isEmpty then dflt else String.mk lastPiece
  | none => dflt

/-- Strip a literal from the front of a character list, returning the
remainder on success. -/
def dropLit : List Char → List Char → Option (List Char)
  | [], cs => some cs
  | _ :: _, [] => none
  | p :: ps, c :: cs => if p = c then dropLit ps cs else none

/-- Case-insensitive variant of `dropLit`, for regexes with the `i` flag;
the remainder keeps the original characters. -/
def dropLitCI : List Char → List Char → Option (List Char)
  | [], cs => some cs
  | _ :: _, [] => none
  | p :: ps, c :: cs => if p.toLower = c.toLower then dropLitCI ps cs else none

/-- All remainders obtainable by consuming at least one whitespace
character (the possible continuations of `\s+`), shortest consumption
first. -/
def wsRemainders1 : List Char → List (List Char)
  | [] => []
  | c :: rest => if isJsWs c then rest :: wsRemainders1 rest else []

/-! ## Data model (`types.ts`) -/

/-- Agent configuration (`AgentConfig`).  `temperature` is an exact
rational stand-in for the JavaScript number, which is only ever stored
and copied by the code under verification. -/
structure AgentConfig where
  llmProvider : String
  apiKey : String
  model : String
  temperature : Rat
  maxTokens : Nat
  apiEndpoint : Option String
deriving Repr, DecidableEq

/-- Session state (`AgentState`). -/
structure AgentState where
  isActive : Bool
  currentTask : Option String
  workspaceFiles : List String
  config : AgentConfig
deriving Repr, DecidableEq

/-- A `Partial<AgentConfig>` argument: `some` for a property present in
the object literal, `none` for an absent one. -/
structure PartialAgentConfig where
  llmProvider : Option String := none
  apiKey : Option String := none
  model : Option String := none
  temperature : Option Rat := none
  maxTokens : Option Nat := none
  apiEndpoint : Option (Option String) := none
deriving Repr, DecidableEq

/-- A request (`AgentRequest`); the wall-clock `timestamp` field is
never read by the code under verification and is omitted. -/
structure AgentRequest where
  id : String
  prompt : String
  context : List String
deriving Repr, DecidableEq

/-- An action (`AgentAction`).  The `type` field is a plain string, as
in the dynamically typed TypeScript data flow. -/
structure AgentAction where
  type : String
  target : Option String := none
  content : Option String := none
  reasoning : Option String := none
deriving Repr, DecidableEq

/-- A response envelope (`AgentResponse`), minus the wall-clock
timestamp. -/
structure AgentResponse where
  requestId : String
  action : AgentAction
  reasoning : String
deriving Repr, DecidableEq

/-- One entry of a content-search result (`FileSearchResult`); the
executor only reads `filePath` and the number of results.  The source
field `matches` is spelled `matchItems` because `matches` is a Lean
keyword. -/
structure FileSearchResult where
  filePath : String
  matchItems : List String
deriving Repr, DecidableEq

/-- An item offered to `showQuickPick`. -/
structure QuickPickItem where
  label : String
  description : Option String := none
  value : String
deriving Repr, DecidableEq

/-- The active editor (`vscode.window.activeTextEditor`): its document
file name and full text. -/
structure ActiveEditor where
  fileName : String
  text : String
deriving Repr, DecidableEq

/-- The shape `JSON.parse` can deliver to `determineAction`: the three
properties the code reads, each possibly absent (`none`) or present
with a string value (`some`; `some ""` is a present but falsy value). -/
structure ParsedReply where
  type : Option String := none
  content : Option String := none
  reasoning : Option String := none
deriving Repr, DecidableEq

/-- JavaScript `x || dflt` for an optional string property: absent and
empty-string values are falsy. -/
def jsOrString : Option String → String → String
  | none, d => d
  | some s, d => if s = "" then d else s

/-! ## Keyword fallback classifier (`analyzeRequestKeywords`) -/

/-- The creation keyword list of the source. -/
def creationKeywords : List String :=
  ["create", "new", "add", "generate", "make", "build", "write", "implement",
   "component", "function", "class", "file", "script", "module", "service"]

/-- A hand-compiled regex token: literal text, an ordered alternation of
literals, `\s+`, `\s*`, an optional group `(?:w\s+)?`, or the `$`
anchor. -/
inductive Pat where
  | lit : String → Pat
  | alt : List String → Pat
  | wsPlus : Pat
  | wsStar : Pat
  | optLitWs : String → Pat
  | eos : Pat
deriving Repr

/-- All remainders a single token can leave, in backtracking preference
order. -/
def stepPat : Pat → List Char → List (List Char)
  | Pat.lit s, cs =>
    match dropLit s.data cs with
    | some r => [r]
    | none => []
  | Pat.alt ss, cs => ss.filterMap (fun s => dropLit s.data cs)
  | Pat.wsPlus, cs => wsRemainders1 cs
  | Pat.wsStar, cs => cs :: wsRemainders1 cs
  | Pat.optLitWs s, cs =>
    (match dropLit s.data cs with
     | some r => wsRemainders1 r
     | none => []) ++ [cs]
  | Pat.eos, cs => if cs.isEmpty then [[]] else []

/-- Does the token sequence match a prefix of the input? -/
def matchPats : List Pat → List Char → Bool
  | [], _ => true
  | p :: ps, cs => (stepPat p cs).any (fun r => matchPats ps r)

/-- Unanchored `RegExp.prototype.test`: the tokens match starting at
some position of the string. -/
def testPats (ps : List Pat) (s : String) : Bool :=
  s.data.tails.any (fun t => matchPats ps t)

/-- The file-creation kinds shared by several of the source regexes. -/
def creationNouns : List String := ["file", "component", "function", "class", "script"]

/-- The five `creationPatterns` regexes of the source, hand-compiled:
`create\s+(?:a\s+)?(?:new\s+)?(?:file|component|function|class|script)`,
`new\s+(?:file|component|function|class|script)`,
`(?:make|build|write|implement)\s+(?:a\s+)?(?:file|…|script)`,
`(?:component|function|class|script|module)\s+(?:for|to|that)`, and
`(?:\.js|\.ts|\.tsx|\.jsx|\.py|\.css|\.html|\.json)\s*$`. -/
def creationPatterns : List (List Pat) :=
  [ [Pat.lit "create", Pat.wsPlus, Pat.optLitWs "a", Pat.optLitWs "new", Pat.alt creationNouns],
    [Pat.lit "new", Pat.wsPlus, Pat.alt creationNouns],
    [Pat.alt ["make", "build", "write", "implement"], Pat.wsPlus, Pat.optLitWs "a",
     Pat.alt creationNouns],
    [Pat.alt ["component", "function", "class", "script", "module"], Pat.wsPlus,
     Pat.alt ["for", "to", "that"]],
    [Pat.alt [".js", ".ts", ".tsx", ".jsx", ".py", ".css", ".html", ".json"], Pat.wsStar,
     Pat.eos] ]

/-- `creationKeywords.some(keyword => lowerPrompt.includes(keyword))`. -/
def hasCreationKeywordIn (lowerPrompt : String) : Bool :=
  creationKeywords.any (fun k => strIncludes lowerPrompt k)

/-- `creationPatterns.some(pattern => pattern.test(lowerPrompt))`. -/
def hasCreationPatternIn (lowerPrompt : String) : Bool :=
  creationPatterns.any (fun p => testPats p lowerPrompt)

/-- The edit-keyword test of the source classifier. -/
def hasEditKeywordIn (lp : String) : Bool :=
  strIncludes lp "edit" || strIncludes lp "modify" || strIncludes lp "change" ||
  strIncludes lp "update" || strIncludes lp "fix" || strIncludes lp "refactor"

/-- The search-keyword test of the source classifier. -/
def hasSearchKeywordIn (lp : String) : Bool :=
  strIncludes lp "search" || strIncludes lp "find" || strIncludes lp "look for"

/-- The analysis-keyword test of the source classifier. -/
def hasAnalyzeKeywordIn (lp : String) : Bool :=
  strIncludes lp "analyze" || strIncludes lp "review" || strIncludes lp "explain" ||
  strIncludes lp "check" || strIncludes lp "examine"

/-- `analyzeRequestKeywords` of the agent module: the deterministic
keyword/pattern fallback classifier. -/
def analyzeRequestKeywords (prompt : String) : AgentAction :=
  let lowerPrompt := jsToLower prompt
  let hasCreationKeyword := hasCreationKeywordIn lowerPrompt
  let hasCreationPattern := hasCreationPatternIn lowerPrompt
  if hasCreationKeyword || hasCreationPattern then
    { type := "create", reasoning := some "Request indicates file/component creation" }
  else if hasEditKeywordIn lowerPrompt then
    { type := "edit", reasoning := some "Request contains edit keywords" }
  else if hasSearchKeywordIn lowerPrompt && !hasCreationKeyword && !hasCreationPattern then
    { type := "search", reasoning := some "Request contains search keywords" }
  else if hasAnalyzeKeywordIn lowerPrompt then
    { type := "analyze", reasoning := some "Request contains analysis keywords" }
  else
    { type := "respond", reasoning := some "Default to response action" }

/-- `extractSearchTerms`: lowercase, split on single spaces, drop the
stop words, join with `|`. -/
def extractSearchTerms (prompt : String) : String :=
  let stopWords : List String := ["search", "find", "for", "the", "a", "an", "in", "on", "at"]
  let ws := (splitOnCharL ' ' (jsToLower prompt).data).map String.mk
  String.mk (joinWith ['|'] ((ws.filter (fun wrd => !stopWords.contains wrd)).map String.data))

/-! ## Markdown stripping (`cleanCodeContent`)

The source regex is `/```[\w]*\n?([\s\S]*?)\n?```/g`: an opening fence,
a greedy run of word characters, a greedy optional newline, a lazy
middle, a greedy optional newline, a closing fence. -/

/-- The triple-backtick fence. -/
def fenceChars : List Char := ['`', '`', '`']

/-- Find the lazy close of a code block: the shortest middle after
which an optional newline (taken greedily) and a closing fence match.
Returns the middle, the characters consumed by `\n?```” close, and the
remainder of the input. -/
def findFenceClose : List Char → Option (List Char × List Char × List Char)
  | [] => none
  | c :: rest =>
    if c = '\n' && fenceChars.isPrefixOf rest then
      some ([], '\n' :: fenceChars, rest.drop 3)
    else if fenceChars.isPrefixOf (c :: rest) then
      some ([], fenceChars, (c :: rest).drop 3)
    else
      match findFenceClose rest with
      | some (mid, close, rem) => some (c :: mid, close, rem)
      | none => none

/-- Try to match one code block starting exactly at the head of the
input; on success return the full matched text and the remainder. -/
def matchCodeBlockAt (cs : List Char) : Option (List Char × List Char) :=
  match dropLit fenceChars cs with
  | none => none
  | some afterFence =>
    let lang := afterFence.takeWhile isWordChar
    let afterLang := afterFence.dropWhile isWordChar
    let nlAndRest : List Char × List Char :=
      match afterLang with
      | '\n' :: rest => (['\n'], rest)
      | _ => ([], afterLang)
    match findFenceClose nlAndRest.2 with
    | none => none
    | some (mid, close, rem) =>
      some (fenceChars ++ lang ++ nlAndRest.1 ++ mid ++ close, rem)

/-- Global scan collecting the non-overlapping matches of the fenced
code-block regex, left to right (`content.match(regex)` with `g`).
`fuel` bounds the recursion; every step consumes at least one input
character, so `cs.length` is always enough fuel. -/
def findCodeBlocksAux : Nat → List Char → List (List Char)
  | 0, _ => []
  | Nat.succ fuel, cs =>
    match cs with
    | [] => []
    | c :: rest =>
      match matchCodeBlockAt (c :: rest) with
      | some (m, rem) => m :: findCodeBlocksAux fuel rem
      | none => findCodeBlocksAux fuel rest

/-- All fenced code-block matches of a character list. -/
def findCodeBlocks (cs : List Char) : List (List Char) :=
  findCodeBlocksAux cs.length cs

/-- `match.replace(/```[\w]*\n?/, '')` applied to a string that starts
with a fence (every collected match does): remove the opening fence,
the greedy language word and the greedy optional newline. -/
def stripOpenFence (m : List Char) : List Char :=
  match dropLit fenceChars m with
  | some r =>
    let afterLang := r.dropWhile isWordChar
    (match afterLang with
     | '\n' :: rest => rest
     | _ => afterLang)
  | none => m

/-- `match.replace(/\n?```$/, '')` applied to a string that ends with a
fence (every collected match does): remove the closing fence and a
newline just before it. -/
def stripCloseFence (m : List Char) : List Char :=
  match dropLit fenceChars m.reverse with
  | some r =>
    (match r with
     | '\n' :: rest => rest.reverse
     | _ => r.reverse)
  | none => m

/-- The `blockContent` computed for each match inside the `forEach`. -/
def blockContentOf (m : List Char) : List Char :=
  stripCloseFence (stripOpenFence m)

/-- The `forEach` fold keeping the strictly largest block content. -/
def largestBlock (ms : List (List Char)) : List Char :=
  ms.foldl
    (fun acc m =>
      let bc := blockContentOf m
      if bc.length > acc.length then bc else acc)
    []

/-- A line matched by `/^\*\*.*?\*\*$/m`: it is `**…**` with the two
delimiters disjoint. -/
def isBoldLine (l : List Char) : Bool :=
  l.length ≥ 4 && ['*', '*'].isPrefixOf l && ['*', '*'].isPrefixOf l.reverse

/-- A line matched by `/^#{1,6}\s+.*$/m`: one to six `#` followed by
whitespace.  Backtracking inside `#{1,6}` cannot help, because every
shorter take leaves `#`, which is not whitespace. -/
def isHeaderLine (l : List Char) : Bool :=
  let run := (l.takeWhile (fun c => c = '#')).length
  decide (1 ≤ run) && decide (run ≤ 6) &&
    (match l.drop run with
     | c :: _ => isJsWs c
     | [] => false)

/-- A line matched by `/^\-\s+.*$/m`: a dash followed by whitespace. -/
def isDashListLine (l : List Char) : Bool :=
  match l with
  | '-' :: c :: _ => isJsWs c
  | _ => false

/-- A global multiline `replace(pattern, '')` that blanks every line
matching the predicate while keeping its newline. -/
def replaceLines (p : List Char → Bool) (cs : List Char) : List Char :=
  joinWith ['\n'] ((splitOnCharL '\n' cs).map (fun l => if p l then [] else l))

/-- `cleanCodeContent` of the agent module: extract the largest fenced
code block if any, trim, then blank bold-header, heading and dash-list
lines. -/
def cleanCodeContent (content : String) : String :=
  let cs := content.data
  let blockMatches := findCodeBlocks cs
  let cleaned := if blockMatches.length > 0 then largestBlock blockMatches else cs
  let cleaned := (jsTrim (String.mk cleaned)).data
  let cleaned := replaceLines isBoldLine cleaned
  let cleaned := replaceLines isHeaderLine cleaned
  let cleaned := replaceLines isDashListLine cleaned
  String.mk cleaned

/-! ## Filename derivation (`determineFileDetails`) -/

/-- Characters of the class `[a-zA-Z0-9._-]` inside a captured file
name. -/
def isFileNameChar (c : Char) : Bool :=
  c.isAlpha || c.isDigit || c = '.' || c = '_' || c = '-'

/-- The capture group `([a-zA-Z][a-zA-Z0-9._-]*\.[a-zA-Z0-9]+)` parsed
at the head of the input: a letter, a greedy name run that backtracks
to the rightmost dot followed by at least one alphanumeric character,
then a greedy alphanumeric extension. -/
def parseFileNameCapture : List Char → Option (List Char)
  | [] => none
  | c :: rest =>
    if c.isAlpha then
      let run := rest.takeWhile isFileNameChar
      ((List.range run.length).reverse).findSome? (fun j =>
        match run.get? j, run.get? (j + 1) with
        | some '.', some d =>
          if d.isAlphanum then
            some (c :: (run.take j ++ '.' :: (run.drop (j + 1)).takeWhile Char.isAlphanum))
          else none
        | _, _ => none)
    else none

/-- The comment markers of
`/(?:\/\/|\/\*|#|\<!--)\s*([a-zA-Z][a-zA-Z0-9._-]*\.[a-zA-Z0-9]+)/`,
in alternation order. -/
def commentMarkers : List (List Char) :=
  [['/', '/'], ['/', '*'], ['#'], ['<', '!', '-', '-']]

/-- Try the comment-filename regex at one position: a marker, greedy
`\s*`, then the filename capture. -/
def matchCommentFileAt (cs : List Char) : Option (List Char) :=
  commentMarkers.findSome? (fun mk =>
    match dropLit mk cs with
    | some r => parseFileNameCapture (r.dropWhile isJsWs)
    | none => none)

/-- Leftmost match of the comment-filename regex
(`contentFileNameMatch`); returns the capture group. -/
def findCommentFile : List Char → Option (List Char)
  | [] => none
  | c :: rest =>
    match matchCommentFileAt (c :: rest) with
    | some cap => some cap
    | none => findCommentFile rest

/-- One optional case-insensitive word followed by `\s+`, as in
`(?:a\s+)?`; candidate remainders in greedy preference order. -/
def optWordCI (wrd : List Char) (cs : List Char) : List (List Char) :=
  (match dropLitCI wrd cs with
   | some r => wsRemainders1 r
   | none => []) ++ [cs]

/-- The optional opening quote `["`']?`, greedy. -/
def optQuote : List Char → List (List Char)
  | [] => [[]]
  | c :: rest =>
    if c = '"' || c = '`' || c = '\'' then [rest, c :: rest] else [c :: rest]

/-- Try the prompt-filename regex
`/(?:create|new|add|generate)\s+(?:a\s+)?(?:file\s+)?(?:called\s+)?["`']?(name)["`']?/i`
at one position; returns the capture group. -/
def matchPromptFileAt (cs : List Char) : Option (List Char) :=
  [("create" : String), "new", "add", "generate"].findSome? (fun kw =>
    match dropLitCI kw.data cs with
    | none => none
    | some r =>
      (wsRemainders1 r).findSome? (fun r1 =>
        (optWordCI "a".data r1).findSome? (fun r2 =>
          (optWordCI "file".data r2).findSome? (fun r3 =>
            (optWordCI "called".data r3).findSome? (fun r4 =>
              (optQuote r4).findSome? parseFileNameCapture)))))

/-- Leftmost match of the prompt-filename regex (`fileNameMatch`). -/
def findPromptFile : List Char → Option (List Char)
  | [] => none
  | c :: rest =>
    match matchPromptFileAt (c :: rest) with
    | some cap => some cap
    | none => findPromptFile rest

/-- Try `/(?:class|function|const)\s+([A-Z][a-zA-Z0-9]*)/` at one
position; returns the captured identifier. -/
def matchComponentAt (cs : List Char) : Option (List Char) :=
  [("class" : String), "function", "const"].findSome? (fun kw =>
    match dropLit kw.data cs with
    | none => none
    | some r =>
      (wsRemainders1 r).findSome? (fun r1 =>
        match r1 with
        | c :: rest => if c.isUpper then some (c :: rest.takeWhile Char.isAlphanum) else none
        | [] => none))

/-- Leftmost match of the identifier regex (`componentMatch`). -/
def findComponentName : List Char → Option (List Char)
  | [] => none
  | c :: rest =>
    match matchComponentAt (c :: rest) with
    | some cap => some cap
    | none => findComponentName rest

/-- The result record of `determineFileDetails`. -/
structure FileDetails where
  fileName : String
  extension : String
deriving Repr, DecidableEq

/-- The shared `split('.')` logic: with more than one part, the popped
last part (or `'txt'` when it is empty) is the extension and the rest
re-joined with dots is the name; otherwise the whole capture is the
name and the extension keeps its prior default `'txt'`. -/
def fileDetailsFromName (fullName : String) : FileDetails :=
  let parts := splitOnCharL '.' fullName.data
  if parts.length > 1 then
    let ext := parts.getLastD []
    { fileName := String.mk (joinWith ['.'] parts.dropLast),
      extension := if ext.isEmpty then "txt" else String.mk ext }
  else
    { fileName := fullName, extension := "txt" }

/-- The content/keyword heuristic chain of `determineFileDetails`
(stage (c)): the first matching branch fixes extension and generic
stem; otherwise the defaults `newFile`/`txt` stand. -/
def heuristicFileDetails (lowerPrompt content : String) : FileDetails :=
  if strIncludes lowerPrompt "javascript" || strIncludes lowerPrompt "js" ||
     strIncludes content "function" || strIncludes content "const " ||
     strIncludes content "let " then
    { fileName := "component", extension := "js" }
  else if strIncludes lowerPrompt "typescript" || strIncludes lowerPrompt "ts" ||
     strIncludes content "interface " || strIncludes content ": string" ||
     strIncludes content ": number" then
    { fileName := "component", extension := "ts" }
  else if strIncludes lowerPrompt "react" || strIncludes content "JSX" ||
     strIncludes content "React" || strIncludes content "useState" ||
     strIncludes content "useEffect" then
    { fileName := "Component", extension := "tsx" }
  else if strIncludes lowerPrompt "css" || strIncludes content "background" ||
     strIncludes content "margin" || strIncludes content "padding" then
    { fileName := "styles", extension := "css" }
  else if strIncludes lowerPrompt "html" || strIncludes content "<html" ||
     strIncludes content "<!DOCTYPE" then
    { fileName := "index", extension := "html" }
  else if strIncludes lowerPrompt "json" ||
     (strIncludes content "\x7b" && strIncludes content "\"") then
    { fileName := "data", extension := "json" }
  else if strIncludes lowerPrompt "python" || strIncludes lowerPrompt "py" ||
     strIncludes content "def " || strIncludes content "import " then
    { fileName := "script", extension := "py" }
  else if strIncludes lowerPrompt "component" || strIncludes lowerPrompt "react" then
    { fileName := "Component", extension := "tsx" }
  else
    { fileName := "newFile", extension := "txt" }

/-- `determineFileDetails` of the agent module: (a) a filename in a
content comment wins outright; else (b) an explicit filename in the
prompt; else the heuristic chain (c) fixes extension and stem and a
detected `class`/`function`/`const` identifier (d), when present,
overrides the stem. -/
def determineFileDetails (prompt content : String) : FileDetails :=
  let lowerPrompt := jsToLower prompt
  match findCommentFile content.data with
  | some cap => fileDetailsFromName (String.mk cap)
  | none =>
    match findPromptFile prompt.data with
    | some cap => fileDetailsFromName (String.mk cap)
    | none =>
      let d := heuristicFileDetails lowerPrompt content
      match findComponentName content.data with
      | some nm => { d with fileName := String.mk nm }
      | none => d

/-! ## Effects: world, environment, agent monad -/

/-- The mutable world: the module-level `agentState` plus logs of the
observable side effects (file-write calls, UI notifications, tokens
forwarded to the caller's `onToken`). -/
structure World where
  agent : AgentState
  writes : List (String × String)
  messages : List String
  tokens : List String
deriving Repr, DecidableEq

/-- The external collaborators, as response oracles.  Fallible
capabilities (LLM completions, LangChain processing, file I/O, content
search) return `Except`; host UI calls of this repository resolve and
are total. -/
structure Env where
  generateResponse : String → List String → Except String String
  generateResponseStream : String → List String → Except String String
  analyzeCode : String → String → Except String String
  jsonParse : String → Except String ParsedReply
  langchainInitialized : Bool
  langchainProcess : String → Except String String
  readFile : String → Except String String
  writeFileResult : String → String → Except String Unit
  openFileResult : String → Except String Unit
  searchInFiles : String → Except String (List FileSearchResult)
  getWorkspaceFiles : Except String (List String)
  quickPick : List QuickPickItem → Option QuickPickItem
  activeEditor : Option ActiveEditor
  workspaceFolder : Option String

/-- One `async` computation: it transforms the world and either
resolves with a value or rejects with an error string; state mutated
before a rejection persists. -/
def AgentM (α : Type) : Type := World → Except String α × World

/-- Resolve with a value. -/
def pureM {α : Type} (a : α) : AgentM α := fun w => (Except.ok a, w)

/-- Sequence two computations (`await`): a rejection short-circuits. -/
def bindM {α β : Type} (x : AgentM α) (f : α → AgentM β) : AgentM β := fun w =>
  match x w with
  | (Except.ok a, w1) => f a w1
  | (Except.error e, w1) => (Except.error e, w1)

/-- `try … catch` around a computation. -/
def tryCatchM {α : Type} (x : AgentM α) (handler : String → AgentM α) : AgentM α := fun w =>
  match x w with
  | (Except.ok a, w1) => (Except.ok a, w1)
  | (Except.error e, w1) => handler e w1

/-- Lift a capability reply into the monad (`await service.call(...)`). -/
def liftExcept {α : Type} (x : Except String α) : AgentM α := fun w => (x, w)

/-- `throw new Error(msg)`. -/
def throwM {α : Type} (e : String) : AgentM α := fun w => (Except.error e, w)

/-- Replace the module-level `currentTask`. -/
def setCurrentTask (t : Option String) : AgentM Unit := fun w =>
  (Except.ok (), { w with agent := { w.agent with currentTask := t } })

/-- `uiService.showMessage`: total (it awaits `vscode.window.show*Message`,
which resolves), logged. -/
def showMessage (msg : String) : AgentM Unit := fun w =>
  (Except.ok (), { w with messages := w.messages ++ [msg] })

/-- The caller's `onToken` callback: total, logged. -/
def emitToken (t : String) : AgentM Unit := fun w =>
  (Except.ok (), { w with tokens := w.tokens ++ [t] })

/-- `fileService.writeFile`: the call is logged, and the oracle decides
whether the returned promise resolves or rejects. -/
def callWriteFile (env : Env) (path content : String) : AgentM Unit := fun w =>
  (env.writeFileResult path content, { w with writes := w.writes ++ [(path, content)] })

/-- `fileService.openFile`. -/
def callOpenFile (env : Env) (path : String) : AgentM Unit :=
  liftExcept (env.openFileResult path)

/-- `uiService.showProgress` runs its task and propagates its outcome
(`vscode.window.withProgress` resolves or rejects with the task). -/
def showProgress {α : Type} (task : AgentM α) : AgentM α := task

/-! ## Classifier (`determineAction`) -/

/-- The classification prompt built by `determineAction`. -/
def analysisPromptFor (prompt : String) : String :=
  "\nAnalyze this user request and determine the best action to take:\n\nRequest: \"" ++
  prompt ++
  "\"\n\nAvailable actions:\n- search: Search for specific code patterns or functionality\n- edit: Modify existing files\n- create: Create new files\n- analyze: Analyze existing code\n- respond: Provide a text response\n\nRespond with a JSON object containing:\n- type: one of the action types above\n- reasoning: why you chose this action\n\nBe specific and actionable.\n"

/-- `determineAction`: LLM classification with JSON parsing, falling
back to `analyzeRequestKeywords` when the call or the parse fails.  A
successfully parsed reply is used as-is: `parsed.type || 'respond'`
with JavaScript falsiness, no membership check against the five
kinds. -/
def determineAction (env : Env) (req : AgentRequest) : AgentM AgentAction :=
  tryCatchM
    (bindM (liftExcept (env.generateResponse (analysisPromptFor req.prompt) req.context))
      (fun response =>
        bindM (liftExcept (env.jsonParse response)) (fun parsed =>
          pureM
            { type := jsOrString parsed.type "respond",
              content := parsed.content,
              reasoning :=
                some (jsOrString parsed.reasoning
                  "Determined action based on request analysis") })))
    (fun _ => pureM (analyzeRequestKeywords req.prompt))

/-! ## Executors -/

/-- `executeSearchAction`: inside a progress task, extract search terms,
run the content search, report the outcome (zero matches is only an
informational message), optionally open the first hit; then return a
Search-kind action. -/
def executeSearchAction (env : Env) (req : AgentRequest) : AgentM AgentAction :=
  bindM
    (showProgress
      (bindM (liftExcept (env.searchInFiles (extractSearchTerms req.prompt)))
        (fun results =>
          if results.length = 0 then
            showMessage "No results found for your search"
          else
            bindM (showMessage ("Found " ++ toString results.length ++ " matches"))
              (fun _ =>
                match results with
                | r :: _ => callOpenFile env r.filePath
                | [] => pureM ()))))
    (fun _ =>
      pureM
        { type := "search",
          content := some ("Searched for: " ++ req.prompt),
          reasoning := some "Completed search operation" })

/-- The edit prompt template of `executeEditAction`. -/
def editPromptFor (label fileContent prompt : String) : String :=
  "You are editing the file: " ++ label ++
  "\n\nCurrent file content:\n```\n" ++ fileContent ++
  "\n```\n\nUser request: " ++ prompt ++
  "\n\nIMPORTANT INSTRUCTIONS:\n- Provide ONLY the complete modified code without any markdown formatting\n- Do NOT wrap the code in backtick blocks\n- Do NOT include explanatory text before or after the code\n- Make the changes requested while preserving the existing code structure\n- Return the FULL file content with the requested modifications\n- Ensure the code is syntactically correct and ready to use"

/-- The success chat content of `executeEditAction`. -/
def editSuccessContent (label value prompt : String) : String :=
  "✅ **File Updated Successfully!**\n\n📁 **File:** `" ++ label ++
  "`\n📍 **Location:** `" ++ value ++
  "`\n\nYour requested changes have been applied and the file has been saved. The updated file is now open in the editor.\n\n**Changes Applied:** " ++ prompt

/-- The failure chat content of `executeEditAction`. -/
def editFailContent (e : String) : String :=
  "❌ **File Update Failed**\n\n**Error:** " ++ e ++
  "\n\nPlease check your file permissions and try again."

/-- The guard `cleanedContent && cleanedContent.trim().length > 0` of
`executeEditAction`: the string is truthy and its trim is non-empty. -/
def hasContent (c : String) : Bool :=
  (c != "") && (jsTrim c != "")

/-- The file picked for editing: the active editor's document when one
exists, else a quick-pick over the first 20 workspace files. -/
def selectEditFile (env : Env) : AgentM (Option QuickPickItem) :=
  match env.activeEditor with
  | some ed =>
    pureM (some { label := lastPathComponent ed.fileName "current file", value := ed.fileName })
  | none =>
    bindM (liftExcept env.getWorkspaceFiles) (fun files =>
      pureM (env.quickPick ((files.take 20).map (fun f =>
        { label := lastPathComponent f f, description := some f, value := f }))))

/-- `executeEditAction`: pick the target, read it, ask the LLM for the
full modified file, strip markdown; write and reopen only when the
cleaned result is non-empty, converting a write failure into a
Respond-kind action. -/
def executeEditAction (env : Env) (req : AgentRequest) : AgentM AgentAction :=
  bindM (selectEditFile env) (fun selectedFile =>
    match selectedFile with
    | none =>
      pureM
        { type := "respond", content := some "No file selected for editing",
          reasoning := some "User cancelled file selection" }
    | some sel =>
      bindM (liftExcept (env.readFile sel.value)) (fun fileContent =>
        bindM
          (liftExcept
            (env.generateResponse (editPromptFor sel.label fileContent req.prompt) req.context))
          (fun editSuggestion =>
            let cleanedContent := cleanCodeContent editSuggestion
            if hasContent cleanedContent then
              tryCatchM
                (bindM (callWriteFile env sel.value cleanedContent) (fun _ =>
                  bindM (callOpenFile env sel.value) (fun _ =>
                    bindM (showMessage ("File updated: " ++ sel.label)) (fun _ =>
                      pureM
                        { type := "edit", target := some sel.value,
                          content := some (editSuccessContent sel.label sel.value req.prompt),
                          reasoning :=
                            some ("Successfully updated " ++ sel.label ++
                              " with requested changes") }))))
                (fun e =>
                  bindM (showMessage ("Failed to update file: " ++ e)) (fun _ =>
                    pureM
                      { type := "respond", content := some (editFailContent e),
                        reasoning := some "File update failed" }))
            else
              pureM
                { type := "respond", content := some "No valid code changes generated",
                  reasoning := some "Generated content was empty or invalid" })))

/-- The generation prompt template of `executeCreateAction`. -/
def createPromptFor (prompt : String) : String :=
  "Create clean, production-ready code based on this request: " ++ prompt ++
  "\n\nIMPORTANT INSTRUCTIONS:\n- Provide ONLY the raw code content without any markdown formatting\n- Do NOT wrap the code in backtick blocks\n- Do NOT include explanatory text before or after the code\n- Make the code complete and ready to use\n- Include proper imports/exports if needed\n- Follow best practices for the language/framework"

/-- The 500-character preview used in the success chat content of
`executeCreateAction`. -/
def contentPreview (cleanedContent : String) : String :=
  if cleanedContent.data.length > 500 then
    String.mk (cleanedContent.data.take 500) ++
      "...\n\n[Content truncated - full file is available in the editor]"
  else cleanedContent

/-- The success chat content of `executeCreateAction`. -/
def createSuccessContent (finalFileName fullPath extension cleanedContent : String) : String :=
  "✅ **File Created Successfully!**\n\n📁 **File:** `" ++ finalFileName ++
  "`\n📍 **Location:** `" ++ fullPath ++
  "`\n\nThe file has been created and opened in the editor. You can now start working with it!\n\n**File Content Preview:**\n```" ++
  extension ++ "\n" ++ contentPreview cleanedContent ++ "\n```"

/-- The failure chat content of `executeCreateAction`. -/
def createFailContent (e : String) : String :=
  "❌ **File Creation Failed**\n\n**Error:** " ++ e ++
  "\n\nPlease check your request and try again. Make sure you have proper write permissions in the workspace."

/-- `executeCreateAction`: generate content, strip markdown, derive the
file name, write under the first workspace root and open; every error
inside the `try` becomes a Respond-kind action. -/
def executeCreateAction (env : Env) (req : AgentRequest) : AgentM AgentAction :=
  tryCatchM
    (bindM (liftExcept (env.generateResponse (createPromptFor req.prompt) req.context))
      (fun rawContent =>
        let cleanedContent := cleanCodeContent rawContent
        let fd := determineFileDetails req.prompt cleanedContent
        let finalFileName := fd.fileName ++ "." ++ fd.extension
        match env.workspaceFolder with
        | none => throwM "No workspace folder found"
        | some root =>
          let fullPath := root ++ "/" ++ finalFileName
          bindM (callWriteFile env fullPath cleanedContent) (fun _ =>
            bindM (callOpenFile env fullPath) (fun _ =>
              bindM (showMessage ("Created file: " ++ finalFileName)) (fun _ =>
                pureM
                  { type := "create", target := some fullPath,
                    content :=
                      some (createSuccessContent finalFileName fullPath fd.extension
                        cleanedContent),
                    reasoning :=
                      some ("Successfully created new file: " ++ finalFileName) })))))
    (fun e =>
      bindM (showMessage ("Failed to create file: " ++ e)) (fun _ =>
        pureM
          { type := "respond", content := some (createFailContent e),
            reasoning := some "File creation failed" }))

/-- The analysis target of `executeAnalyzeAction`: the active editor's
file name and text when one exists, else a quick-pick over the first 20
workspace files followed by a read; `none` when the user cancels. -/
def selectAnalyzeTarget (env : Env) : AgentM (Option (String × String)) :=
  match env.activeEditor with
  | some ed => pureM (some (ed.fileName, ed.text))
  | none =>
    bindM (liftExcept env.getWorkspaceFiles) (fun files =>
      match env.quickPick ((files.take 20).map (fun f =>
          { label := lastPathComponent f f, description := some f, value := f })) with
      | none => pureM none
      | some sel =>
        bindM (liftExcept (env.readFile sel.value)) (fun content =>
          pureM (some (sel.value, content))))

/-- `executeAnalyzeAction`: analyse the active document, or a picked
file (first 20, cancellation yields a Respond-kind action), via the
LLM. -/
def executeAnalyzeAction (env : Env) (req : AgentRequest) : AgentM AgentAction :=
  bindM (selectAnalyzeTarget env)
    (fun picked =>
      match picked with
      | none =>
        pureM
          { type := "respond", content := some "No file selected for analysis",
            reasoning := some "User cancelled file selection" }
      | some (targetFile, content) =>
        bindM (liftExcept (env.analyzeCode content req.prompt)) (fun analysis =>
          bindM (showMessage "Code analysis complete. Check output for details.") (fun _ =>
            pureM
              { type := "analyze", target := some targetFile, content := some analysis,
                reasoning := some "Completed code analysis" })))

/-- `executeResponseAction`: plain completion on the raw prompt. -/
def executeResponseAction (env : Env) (req : AgentRequest) : AgentM AgentAction :=
  bindM (liftExcept (env.generateResponse req.prompt req.context)) (fun response =>
    bindM (showMessage response) (fun _ =>
      pureM
        { type := "respond", content := some response,
          reasoning := some "Generated AI response" }))

/-- `executeAction`: dispatch on the (string) action kind; every
unknown kind, including `'respond'`, falls to the response executor. -/
def executeAction (env : Env) (action : AgentAction) (req : AgentRequest) : AgentM AgentAction :=
  if action.type = "search" then executeSearchAction env req
  else if action.type = "edit" then executeEditAction env req
  else if action.type = "create" then executeCreateAction env req
  else if action.type = "analyze" then executeAnalyzeAction env req
  else executeResponseAction env req

/-! ## Orchestrator -/

/-- The body of the `try` block of `processAgentRequest`: the LangChain
shortcut when that agent is initialized, else classify, dispatch and
clear the current task before building the success envelope. -/
def processTryBody (env : Env) (req : AgentRequest) : AgentM AgentResponse :=
  if env.langchainInitialized then
    bindM (liftExcept (env.langchainProcess req.prompt)) (fun result =>
      bindM (setCurrentTask none) (fun _ =>
        pureM
          { requestId := req.id,
            action := { type := "respond", content := some result },
            reasoning := "Processed with LangChain agent" }))
  else
    bindM (determineAction env req) (fun action =>
      bindM (executeAction env action req) (fun result =>
        bindM (setCurrentTask none) (fun _ =>
          pureM
            { requestId := req.id, action := result,
              reasoning := "Processed request: " ++ req.prompt })))

/-- `processAgentRequest`: set the current task, run the body, and on
any rejection clear the task, surface the error and return the
Respond-kind error envelope. -/
def processAgentRequest (env : Env) (req : AgentRequest) : AgentM AgentResponse :=
  bindM (setCurrentTask (some req.prompt)) (fun _ =>
    tryCatchM (processTryBody env req)
      (fun e =>
        bindM (setCurrentTask none) (fun _ =>
          bindM (showMessage ("Agent error: " ++ e)) (fun _ =>
            pureM
              { requestId := req.id,
                action := { type := "respond", content := some ("Error: " ++ e) },
                reasoning := "Failed to process request" }))))

/-- `processAgentRequestStream`: set the current task, stream a plain
response, clear the task; a rejection clears the task, forwards the
error text as a token and returns the Respond-kind error envelope. -/
def processAgentRequestStream (env : Env) (req : AgentRequest) : AgentM AgentResponse :=
  bindM (setCurrentTask (some req.prompt)) (fun _ =>
    tryCatchM
      (bindM (liftExcept (env.generateResponseStream req.prompt req.context)) (fun response =>
        bindM (setCurrentTask none) (fun _ =>
          pureM
            { requestId := req.id,
              action := { type := "respond", content := some response },
              reasoning := "Processed request: " ++ req.prompt })))
      (fun e =>
        bindM (setCurrentTask none) (fun _ =>
          bindM (emitToken ("Agent error: " ++ e)) (fun _ =>
            pureM
              { requestId := req.id,
                action := { type := "respond", content := some ("Agent error: " ++ e) },
                reasoning := "Failed to process request" }))))

/-- `updateAgentConfig`: spread the partial configuration over the
stored one; `isActive`, `currentTask` and `workspaceFiles` are carried
over unchanged by the outer spread.  (The call into an existing
LangChain agent instance does not touch `agentState`.) -/
def updateAgentConfig (p : PartialAgentConfig) (s : AgentState) : AgentState :=
  { s with
    config :=
      { llmProvider := p.llmProvider.getD s.config.llmProvider,
        apiKey := p.apiKey.getD s.config.apiKey,
        model := p.model.getD s.config.model,
        temperature := p.temperature.getD s.config.temperature,
        maxTokens := p.maxTokens.getD s.config.maxTokens,
        apiEndpoint := p.apiEndpoint.getD s.config.apiEndpoint } }

/-! ## Characterization lemmas -/

/-- The pure value `determineAction` resolves with: the parsed LLM
reply when both the call and the parse succeed, the keyword fallback
otherwise. -/
def determineActionResult (env : Env) (req : AgentRequest) : AgentAction :=
  match env.generateResponse (analysisPromptFor req.prompt) req.context with
  | Except.error _ => analyzeRequestKeywords req.prompt
  | Except.ok r =>
    match env.jsonParse r with
    | Except.error _ => analyzeRequestKeywords req.prompt
    | Except.ok parsed =>
      { type := jsOrString parsed.type "respond",
        content := parsed.content,
        reasoning :=
          some (jsOrString parsed.reasoning "Determined action based on request analysis") }

/-- `determineAction` always resolves, never changes the world, and
returns `determineActionResult`. -/
theorem determineAction_eq (env : Env) (req : AgentRequest) (w : World) :
    determineAction env req w = (Except.ok (determineActionResult env req), w) := by
  cases hg : env.generateResponse (analysisPromptFor req.prompt) req.context with
  | ok r =>
    cases hp : env.jsonParse r with
    | ok parsed =>
      simp [determineAction, determineActionResult, tryCatchM, bindM, liftExcept, pureM, hg, hp]
    | error e =>
      simp [determineAction, determineActionResult, tryCatchM, bindM, liftExcept, pureM, hg, hp]
  | error e =>
    simp [determineAction, determineActionResult, tryCatchM, bindM, liftExcept, pureM, hg]

/-- Running a bind whose first component's run is known. -/
theorem bindM_run {α β : Type} (x : AgentM α) (f : α → AgentM β) (w w1 : World) (a : α)
    (hx : x w = (Except.ok a, w1)) : bindM x f w = f a w1 := by
  simp [bindM, hx]

/-- When the `try` body of `processAgentRequest` resolves, its envelope
carries the request id and the current task has been cleared. -/
theorem processTryBody_ok_shape (env : Env) (req : AgentRequest) (w : World)
    (r : AgentResponse) (w1 : World)
    (h : processTryBody env req w = (Except.ok r, w1)) :
    r.requestId = req.id ∧ w1.agent.currentTask = none := by
  unfold processTryBody at h
  by_cases hl : env.langchainInitialized = true
  · rw [if_pos hl] at h
    cases hp : env.langchainProcess req.prompt with
    | ok result =>
      simp [bindM, liftExcept, setCurrentTask, pureM, hp] at h
      obtain ⟨h1, h2⟩ := h
      exact ⟨by rw [← h1], by rw [← h2]⟩
    | error e =>
      simp [bindM, liftExcept, setCurrentTask, pureM, hp] at h
  · rw [if_neg hl] at h
    rw [bindM_run (determineAction env req) _ w w (determineActionResult env req)
      (determineAction_eq env req w)] at h
    rcases he : executeAction env (determineActionResult env req) req w with ⟨x, w2⟩
    cases x with
    | ok result =>
      rw [bindM_run (executeAction env (determineActionResult env req) req) _ w w2 result he] at h
      simp [bindM, pureM, setCurrentTask] at h
      obtain ⟨h1, h2⟩ := h
      exact ⟨by rw [← h1], by rw [← h2]⟩
    | error e =>
      simp [bindM, he] at h

/-- Full run shape of `processAgentRequest`: it always resolves, the
envelope carries the request id, the final current task is `null`, and
if the `try` body rejected then the envelope is the Respond-kind error
one. -/
theorem processAgentRequest_run (env : Env) (req : AgentRequest) (w : World) :
    ∃ resp w1, processAgentRequest env req w = (Except.ok resp, w1) ∧
      resp.requestId = req.id ∧ w1.agent.currentTask = none ∧
      (∀ e we, processTryBody env req
          { w with agent := { w.agent with currentTask := some req.prompt } } =
          (Except.error e, we) →
        resp.action.type = "respond" ∧ resp.action.content = some ("Error: " ++ e)) := by
  rcases hbody : processTryBody env req
      { w with agent := { w.agent with currentTask := some req.prompt } } with ⟨x, w2⟩
  cases x with
  | ok r =>
    obtain ⟨hid, htask⟩ := processTryBody_ok_shape _ _ _ _ _ hbody
    refine ⟨r, w2, ?_, hid, htask, ?_⟩
    · unfold processAgentRequest
      rw [bindM_run (setCurrentTask (some req.prompt)) _ w _ () rfl]
      simp [tryCatchM, hbody]
    · intro e we hc
      simp at hc
  | error e =>
    refine ⟨{ requestId := req.id,
              action := { type := "respond", content := some ("Error: " ++ e) },
              reasoning := "Failed to process request" },
            { w2 with agent := { w2.agent with currentTask := none },
                      messages := w2.messages ++ ["Agent error: " ++ e] }, ?_, rfl, rfl, ?_⟩
    · unfold processAgentRequest
      rw [bindM_run (setCurrentTask (some req.prompt)) _ w _ () rfl]
      simp [tryCatchM, hbody, bindM, setCurrentTask, showMessage, pureM]
    · intro e1 we hc
      injection hc with h1 h2
      injection h1 with h1
      subst h1
      exact ⟨rfl, rfl⟩

/-- Full run shape of `processAgentRequestStream`: it always resolves,
the envelope carries the request id, the final current task is `null`,
and a failed streaming call yields the Respond-kind error envelope. -/
theorem processAgentRequestStream_run (env : Env) (req : AgentRequest) (w : World) :
    ∃ resp w1, processAgentRequestStream env req w = (Except.ok resp, w1) ∧
      resp.requestId = req.id ∧ w1.agent.currentTask = none ∧
      (∀ e, env.generateResponseStream req.prompt req.context = Except.error e →
        resp.action.type = "respond" ∧ resp.action.content = some ("Agent error: " ++ e)) := by
  cases hs : env.generateResponseStream req.prompt req.context with
  | ok response =>
    refine ⟨{ requestId := req.id,
              action := { type := "respond", content := some response },
              reasoning := "Processed request: " ++ req.prompt },
            { w with agent := { w.agent with currentTask := none } }, ?_, rfl, rfl, ?_⟩
    · simp [processAgentRequestStream, bindM, setCurrentTask, tryCatchM, liftExcept, pureM, hs]
    · intro e hc
      simp at hc
  | error e =>
    refine ⟨{ requestId := req.id,
              action := { type := "respond", content := some ("Agent error: " ++ e) },
              reasoning := "Failed to process request" },
            { w with agent := { w.agent with currentTask := none },
                     tokens := w.tokens ++ ["Agent error: " ++ e] }, ?_, rfl, rfl, ?_⟩
    · simp [processAgentRequestStream, bindM, setCurrentTask, tryCatchM, liftExcept, pureM,
        emitToken, hs]
    · intro e1 hc
      injection hc with h1
      subst h1
      exact ⟨rfl, rfl⟩

/-! ## Claim theorems -/

set_option maxRecDepth 8192

/-- C1.  `processRequest` and `processRequestStream` never reject: each
resolves to a Response whose `requestId` equals the request's `id`, and
when the internal processing fails (the `try` body of the non-streaming
path, resp. the streaming completion call, rejects with `e`) the
returned Response's action has kind `respond` and its content carries
the error description. -/
theorem processRequest_always_resolves (env : Env) (req : AgentRequest) (w : World) :
    (∃ resp w1, processAgentRequest env req w = (Except.ok resp, w1) ∧
      resp.requestId = req.id ∧
      (∀ e we, processTryBody env req
          { w with agent := { w.agent with currentTask := some req.prompt } } =
          (Except.error e, we) →
        resp.action.type = "respond" ∧ resp.action.content = some ("Error: " ++ e))) ∧
    (∃ resp w1, processAgentRequestStream env req w = (Except.ok resp, w1) ∧
      resp.requestId = req.id ∧
      (∀ e, env.generateResponseStream req.prompt req.context = Except.error e →
        resp.action.type = "respond" ∧ resp.action.content = some ("Agent error: " ++ e))) := by
  constructor
  · obtain ⟨resp, w1, heq, hid, _, herr⟩ := processAgentRequest_run env req w
    exact ⟨resp, w1, heq, hid, herr⟩
  · obtain ⟨resp, w1, heq, hid, _, herr⟩ := processAgentRequestStream_run env req w
    exact ⟨resp, w1, heq, hid, herr⟩

/-- C1 witness: concrete run in which every LLM capability fails; both
entry points still resolve, with the documented error envelope on the
streaming path (whose completion call rejects). -/
def envAllFail : Env :=
  { generateResponse := fun _ _ => Except.error "llm down",
    generateResponseStream := fun _ _ => Except.error "stream down",
    analyzeCode := fun _ _ => Except.error "llm down",
    jsonParse := fun _ => Except.error "Unexpected token h in JSON at position 0",
    langchainInitialized := false,
    langchainProcess := fun _ => Except.error "LangChain agent not initialized",
    readFile := fun _ => Except.error "ENOENT",
    writeFileResult := fun _ _ => Except.ok (),
    openFileResult := fun _ => Except.ok (),
    searchInFiles := fun _ => Except.ok [],
    getWorkspaceFiles := Except.ok [],
    quickPick := fun _ => none,
    activeEditor := none,
    workspaceFolder := none }

/-- A concrete configuration for witness runs. -/
def witnessConfig : AgentConfig :=
  { llmProvider := "openai", apiKey := "", model := "gpt-4", temperature := (7 : Rat) / 10,
    maxTokens := 2000, apiEndpoint := none }

/-- A concrete world for witness runs. -/
def witnessWorld : World :=
  { agent :=
      { isActive := true, currentTask := none, workspaceFiles := [], config := witnessConfig },
    writes := [], messages := [], tokens := [] }

/-- A concrete request for witness runs. -/
def witnessRequest : AgentRequest := { id := "req-1", prompt := "hello there", context := [] }

theorem processRequest_always_resolves_witness :
    ∃ resp w1, processAgentRequestStream envAllFail witnessRequest witnessWorld =
        (Except.ok resp, w1) ∧
      resp.requestId = witnessRequest.id ∧
      resp.action.type = "respond" ∧
      resp.action.content = some "Agent error: stream down" := by
  obtain ⟨_, hstream⟩ := processRequest_always_resolves envAllFail witnessRequest witnessWorld
  obtain ⟨resp, w1, heq, hid, herr⟩ := hstream
  obtain ⟨htype, hcontent⟩ := herr "stream down" rfl
  exact ⟨resp, w1, heq, hid, htype, hcontent⟩

/-- C2.  After either entry point resolves, the session state's
`currentTask` is `null`, on the success and error paths alike. -/
theorem processRequest_clears_currentTask (env : Env) (req : AgentRequest) (w : World) :
    (processAgentRequest env req w).2.agent.currentTask = none ∧
    (processAgentRequestStream env req w).2.agent.currentTask = none := by
  constructor
  · obtain ⟨resp, w1, heq, _, htask, _⟩ := processAgentRequest_run env req w
    rw [heq]
    exact htask
  · obtain ⟨resp, w1, heq, _, htask, _⟩ := processAgentRequestStream_run env req w
    rw [heq]
    exact htask

/-- A resolving run of the Search executor yields kind `search`. -/
theorem executeSearchAction_ok_type (env : Env) (req : AgentRequest) (w : World)
    (a : AgentAction) (w1 : World)
    (h : executeSearchAction env req w = (Except.ok a, w1)) : a.type = "search" := by
  cases hs : env.searchInFiles (extractSearchTerms req.prompt) with
  | error e =>
    simp [executeSearchAction, showProgress, bindM, liftExcept, hs] at h
  | ok results =>
    cases results with
    | nil =>
      simp [executeSearchAction, showProgress, bindM, liftExcept, pureM, showMessage, hs] at h
      rw [← h.1]
    | cons r rest =>
      cases ho : env.openFileResult r.filePath with
      | ok u =>
        simp [executeSearchAction, showProgress, bindM, liftExcept, pureM, showMessage,
          callOpenFile, hs, ho] at h
        rw [← h.1]
      | error e =>
        simp [executeSearchAction, showProgress, bindM, liftExcept, pureM, showMessage,
          callOpenFile, hs, ho] at h

/-- A resolving run of the Respond executor yields kind `respond`. -/
theorem executeResponseAction_ok_type (env : Env) (req : AgentRequest) (w : World)
    (a : AgentAction) (w1 : World)
    (h : executeResponseAction env req w = (Except.ok a, w1)) : a.type = "respond" := by
  cases hg : env.generateResponse req.prompt req.context with
  | error e =>
    simp [executeResponseAction, bindM, liftExcept, hg] at h
  | ok response =>
    simp [executeResponseAction, bindM, liftExcept, pureM, showMessage, hg] at h
    rw [← h.1]

/-- A resolving run of the Analyze executor yields kind `analyze` or,
on picker cancellation, `respond`. -/
theorem executeAnalyzeAction_ok_type (env : Env) (req : AgentRequest) (w : World)
    (a : AgentAction) (w1 : World)
    (h : executeAnalyzeAction env req w = (Except.ok a, w1)) :
    a.type = "analyze" ∨ a.type = "respond" := by
  unfold executeAnalyzeAction at h
  rcases hpick : selectAnalyzeTarget env w with ⟨x, w2⟩
  cases x with
  | error e =>
    simp only [bindM] at h
    rw [hpick] at h
    simp at h
  | ok picked =>
    rw [bindM_run _ _ w w2 picked hpick] at h
    cases picked with
    | none =>
      simp [pureM] at h
      right
      rw [← h.1]
    | some tc =>
      cases ha : env.analyzeCode tc.2 req.prompt with
      | error e => simp [bindM, liftExcept, ha] at h
      | ok analysis =>
        simp [bindM, liftExcept, pureM, showMessage, ha] at h
        left
        rw [← h.1]

/-- `selectEditFile` always leaves the world unchanged and either
resolves with an optional pick or rejects. -/
theorem selectEditFile_run (env : Env) (w : World) :
    (∃ sel, selectEditFile env w = (Except.ok sel, w)) ∨
    (∃ e, selectEditFile env w = (Except.error e, w)) := by
  unfold selectEditFile
  cases env.activeEditor with
  | some ed => exact Or.inl ⟨_, rfl⟩
  | none =>
    cases hg : env.getWorkspaceFiles with
    | ok files =>
      refine Or.inl ⟨env.quickPick ((files.take 20).map (fun f =>
        { label := lastPathComponent f f, description := some f, value := f })), ?_⟩
      simp [bindM, liftExcept, pureM, hg]
    | error e => exact Or.inr ⟨e, by simp [bindM, liftExcept, hg]⟩

/-- A resolving run of the Edit executor yields kind `edit` on the
write path and `respond` on the cancellation, empty-output and failure
paths. -/
theorem executeEditAction_ok_type (env : Env) (req : AgentRequest) (w : World)
    (a : AgentAction) (w1 : World)
    (h : executeEditAction env req w = (Except.ok a, w1)) :
    a.type = "edit" ∨ a.type = "respond" := by
  unfold executeEditAction at h
  rcases selectEditFile_run env w with ⟨sel, hsel⟩ | ⟨e, hsel⟩
  · rw [bindM_run _ _ w w sel hsel] at h
    cases sel with
    | none =>
      simp [pureM] at h
      exact Or.inr (by rw [← h.1])
    | some selFile =>
      cases hr : env.readFile selFile.value with
      | error e => simp [bindM, liftExcept, hr] at h
      | ok fileContent =>
        cases hg : env.generateResponse (editPromptFor selFile.label fileContent req.prompt)
            req.context with
        | error e => simp [bindM, liftExcept, hr, hg] at h
        | ok editSuggestion =>
          cases hcond : hasContent (cleanCodeContent editSuggestion) with
          | false =>
            simp [bindM, liftExcept, pureM, hr, hg, hcond] at h
            exact Or.inr (by rw [← h.1])
          | true =>
            cases hwr : env.writeFileResult selFile.value (cleanCodeContent editSuggestion) with
            | ok u =>
              cases hof : env.openFileResult selFile.value with
              | ok v =>
                simp [tryCatchM, bindM, callWriteFile, callOpenFile, liftExcept, showMessage,
                  pureM, hr, hg, hcond, hwr, hof] at h
                exact Or.inl (by rw [← h.1])
              | error e =>
                simp [tryCatchM, bindM, callWriteFile, callOpenFile, liftExcept, showMessage,
                  pureM, hr, hg, hcond, hwr, hof] at h
                exact Or.inr (by rw [← h.1])
            | error e =>
              simp [tryCatchM, bindM, callWriteFile, callOpenFile, liftExcept, showMessage,
                pureM, hr, hg, hcond, hwr] at h
              exact Or.inr (by rw [← h.1])
  · simp only [bindM] at h
    rw [hsel] at h
    simp at h

/-- A resolving run of the Create executor yields kind `create` on the
write path and `respond` on the failure path. -/
theorem executeCreateAction_ok_type (env : Env) (req : AgentRequest) (w : World)
    (a : AgentAction) (w1 : World)
    (h : executeCreateAction env req w = (Except.ok a, w1)) :
    a.type = "create" ∨ a.type = "respond" := by
  unfold executeCreateAction at h
  cases hg : env.generateResponse (createPromptFor req.prompt) req.context with
  | error e =>
    simp [tryCatchM, bindM, liftExcept, showMessage, pureM, hg] at h
    exact Or.inr (by rw [← h.1])
  | ok rawContent =>
    cases hwf : env.workspaceFolder with
    | none =>
      simp [tryCatchM, bindM, liftExcept, throwM, showMessage, pureM, hg, hwf] at h
      exact Or.inr (by rw [← h.1])
    | some root =>
      cases hwr : env.writeFileResult
          (root ++ "/" ++
            ((determineFileDetails req.prompt (cleanCodeContent rawContent)).fileName ++ "." ++
              (determineFileDetails req.prompt (cleanCodeContent rawContent)).extension))
          (cleanCodeContent rawContent) with
      | error e =>
        simp [tryCatchM, bindM, liftExcept, callWriteFile, callOpenFile, showMessage, pureM,
          hg, hwf, hwr] at h
        exact Or.inr (by rw [← h.1])
      | ok u =>
        cases hof : env.openFileResult
            (root ++ "/" ++
              ((determineFileDetails req.prompt (cleanCodeContent rawContent)).fileName ++ "." ++
                (determineFileDetails req.prompt (cleanCodeContent rawContent)).extension)) with
        | ok v =>
          simp [tryCatchM, bindM, liftExcept, callWriteFile, callOpenFile, showMessage, pureM,
            hg, hwf, hwr, hof] at h
          exact Or.inl (by rw [← h.1])
        | error e =>
          simp [tryCatchM, bindM, liftExcept, callWriteFile, callOpenFile, showMessage, pureM,
            hg, hwf, hwr, hof] at h
          exact Or.inr (by rw [← h.1])

/-- A concrete request whose keyword classification is Edit. -/
def reqEditThis : AgentRequest := { id := "req-edit", prompt := "edit this", context := [] }

/-- C3 counterexample.  With the LLM down (so the keyword fallback
classifies `"edit this"` as kind `edit`), no active editor and a
cancelled file picker, the returned Response's action kind is
`respond`, not the classification kind `edit`: the executors do
substitute a different kind on their cancellation/failure paths. -/
theorem executionKind_counterexample :
    (determineAction envAllFail reqEditThis witnessWorld).1 =
      Except.ok { type := "edit", reasoning := some "Request contains edit keywords" } ∧
    (processAgentRequest envAllFail reqEditThis witnessWorld).1.map (fun resp => resp.action.type) =
      Except.ok "respond" := by
  exact ⟨rfl, rfl⟩

/-- C3 amended.  A resolving dispatch returns an action whose kind
equals the classified kind, except that the cancellation, empty-output
and failure paths of the executors (and the default dispatch branch)
substitute kind `respond`. -/
theorem executionKind_matches_or_respond (env : Env) (action : AgentAction)
    (req : AgentRequest) (w : World) (a : AgentAction) (w1 : World)
    (h : executeAction env action req w = (Except.ok a, w1)) :
    a.type = action.type ∨ a.type = "respond" := by
  unfold executeAction at h
  by_cases h1 : action.type = "search"
  · rw [if_pos h1] at h
    exact Or.inl ((executeSearchAction_ok_type env req w a w1 h).trans h1.symm)
  · rw [if_neg h1] at h
    by_cases h2 : action.type = "edit"
    · rw [if_pos h2] at h
      rcases executeEditAction_ok_type env req w a w1 h with he | he
      · exact Or.inl (he.trans h2.symm)
      · exact Or.inr he
    · rw [if_neg h2] at h
      by_cases h3 : action.type = "create"
      · rw [if_pos h3] at h
        rcases executeCreateAction_ok_type env req w a w1 h with he | he
        · exact Or.inl (he.trans h3.symm)
        · exact Or.inr he
      · rw [if_neg h3] at h
        by_cases h4 : action.type = "analyze"
        · rw [if_pos h4] at h
          rcases executeAnalyzeAction_ok_type env req w a w1 h with he | he
          · exact Or.inl (he.trans h4.symm)
          · exact Or.inr he
        · rw [if_neg h4] at h
          exact Or.inr (executeResponseAction_ok_type env req w a w1 h)

theorem executionKind_matches_or_respond_witness :
    ∃ a w1, executeAction envAllFail { type := "edit" } reqEditThis witnessWorld =
        (Except.ok a, w1) ∧ (a.type = "edit" ∨ a.type = "respond") :=
  ⟨_, _, rfl,
    executionKind_matches_or_respond envAllFail { type := "edit" } reqEditThis witnessWorld _ _
      rfl⟩

/-- C4.  The keyword fallback classifier is a function of the lowercased
prompt and applies, first match wins: Create on any creation keyword or
creation pattern; else Edit on edit/modify/change/update/fix/refactor;
else Search on search/find/look for (no Create indicator can be present
in that branch); else Analyze on analyze/review/explain/check/examine;
else Respond. -/
theorem keywordFallback_priority (p q : String) :
    (jsToLower p = jsToLower q → analyzeRequestKeywords p = analyzeRequestKeywords q) ∧
    ((hasCreationKeywordIn (jsToLower p) || hasCreationPatternIn (jsToLower p)) = true →
      (analyzeRequestKeywords p).type = "create") ∧
    ((hasCreationKeywordIn (jsToLower p) || hasCreationPatternIn (jsToLower p)) = false →
      hasEditKeywordIn (jsToLower p) = true →
      (analyzeRequestKeywords p).type = "edit") ∧
    ((hasCreationKeywordIn (jsToLower p) || hasCreationPatternIn (jsToLower p)) = false →
      hasEditKeywordIn (jsToLower p) = false → hasSearchKeywordIn (jsToLower p) = true →
      (analyzeRequestKeywords p).type = "search") ∧
    ((hasCreationKeywordIn (jsToLower p) || hasCreationPatternIn (jsToLower p)) = false →
      hasEditKeywordIn (jsToLower p) = false → hasSearchKeywordIn (jsToLower p) = false →
      hasAnalyzeKeywordIn (jsToLower p) = true →
      (analyzeRequestKeywords p).type = "analyze") ∧
    ((hasCreationKeywordIn (jsToLower p) || hasCreationPatternIn (jsToLower p)) = false →
      hasEditKeywordIn (jsToLower p) = false → hasSearchKeywordIn (jsToLower p) = false →
      hasAnalyzeKeywordIn (jsToLower p) = false →
      (analyzeRequestKeywords p).type = "respond") := by
  refine ⟨?_, ?_, ?_, ?_, ?_, ?_⟩
  · intro h
    unfold analyzeRequestKeywords
    rw [h]
  · intro h
    rcases Bool.or_eq_true_iff.mp h with h1 | h1 <;>
      simp [analyzeRequestKeywords, h1]
  · intro h he
    obtain ⟨h1, h2⟩ := Bool.or_eq_false_iff.mp h
    simp [analyzeRequestKeywords, h1, h2, he]
  · intro h he hs
    obtain ⟨h1, h2⟩ := Bool.or_eq_false_iff.mp h
    simp [analyzeRequestKeywords, h1, h2, he, hs]
  · intro h he hs ha
    obtain ⟨h1, h2⟩ := Bool.or_eq_false_iff.mp h
    simp [analyzeRequestKeywords, h1, h2, he, hs, ha]
  · intro h he hs ha
    obtain ⟨h1, h2⟩ := Bool.or_eq_false_iff.mp h
    simp [analyzeRequestKeywords, h1, h2, he, hs, ha]

theorem keywordFallback_priority_witness :
    (analyzeRequestKeywords "create a new file called foo.ts").type = "create" ∧
    (analyzeRequestKeywords "find all usages of login").type = "search" := by
  constructor
  · exact (keywordFallback_priority "create a new file called foo.ts" "").2.1 (by decide)
  · exact (keywordFallback_priority "find all usages of login" "").2.2.2.1 (by decide)
      (by decide) (by decide)

/-- The JSON reply text of the C5 counterexample environment. -/
def bananaJson : String := "\x7b\"type\": \"banana\", \"reasoning\": \"sounded right\"\x7d"

/-- An environment whose LLM answers the classification prompt for
`"hello there"` with syntactically valid JSON carrying the unexpected
kind value `banana` (`JSON.parse` succeeds on it). -/
def envBanana : Env :=
  { envAllFail with
    generateResponse := fun p _ =>
      if p = analysisPromptFor "hello there" then Except.ok bananaJson
      else Except.error "llm down",
    jsonParse := fun s =>
      if s = bananaJson then
        Except.ok { type := some "banana", reasoning := some "sounded right" }
      else Except.error "Unexpected token" }

/-- C5 counterexample.  On a successfully parsed reply with the
unexpected kind value `banana`, `determineAction` returns that kind
as-is: it is not one of the five valid kinds and is not the keyword
fallback's result (`respond` for this prompt). -/
theorem determineAction_invalid_kind_counterexample :
    (determineAction envBanana witnessRequest witnessWorld).1.map (fun a => a.type) =
      Except.ok "banana" ∧
    (["search", "edit", "create", "analyze", "respond"].contains "banana") = false ∧
    (analyzeRequestKeywords witnessRequest.prompt).type = "respond" := by
  exact ⟨rfl, by decide, rfl⟩

/-- C5 amended.  `determineAction` never rejects and never changes the
world; it returns the keyword fallback result when the LLM call or the
JSON parse fails, and otherwise passes the parsed reply through with
kind `parsed.type` when truthy (even when that is not one of the five
kinds) else `respond`. -/
theorem determineAction_total_fallback (env : Env) (req : AgentRequest) (w : World) :
    determineAction env req w = (Except.ok (determineActionResult env req), w) ∧
    (∀ e, env.generateResponse (analysisPromptFor req.prompt) req.context = Except.error e →
      determineActionResult env req = analyzeRequestKeywords req.prompt) ∧
    (∀ r e, env.generateResponse (analysisPromptFor req.prompt) req.context = Except.ok r →
      env.jsonParse r = Except.error e →
      determineActionResult env req = analyzeRequestKeywords req.prompt) ∧
    (∀ r parsed, env.generateResponse (analysisPromptFor req.prompt) req.context = Except.ok r →
      env.jsonParse r = Except.ok parsed →
      (determineActionResult env req).type = jsOrString parsed.type "respond") := by
  refine ⟨determineAction_eq env req w, ?_, ?_, ?_⟩
  · intro e he
    simp [determineActionResult, he]
  · intro r e hr he
    simp [determineActionResult, hr, he]
  · intro r parsed hr hp
    simp [determineActionResult, hr, hp]

theorem determineAction_total_fallback_witness :
    determineAction envAllFail witnessRequest witnessWorld =
      (Except.ok (analyzeRequestKeywords witnessRequest.prompt), witnessWorld) := by
  obtain ⟨h1, h2, _, _⟩ := determineAction_total_fallback envAllFail witnessRequest witnessWorld
  rw [h1, h2 "llm down" rfl]

/-- When listing workspace files succeeds, `selectEditFile` resolves
without changing the world. -/
theorem selectEditFile_ok (env : Env) (w : World)
    (hfiles : ∃ fs, env.getWorkspaceFiles = Except.ok fs) :
    ∃ sel, selectEditFile env w = (Except.ok sel, w) := by
  rcases selectEditFile_run env w with ⟨sel, hsel⟩ | ⟨e, hsel⟩
  · exact ⟨sel, hsel⟩
  · obtain ⟨fs, hg⟩ := hfiles
    unfold selectEditFile at hsel
    cases hae : env.activeEditor with
    | some ed => rw [hae] at hsel; simp [pureM] at hsel
    | none => rw [hae] at hsel; simp [bindM, liftExcept, pureM, hg] at hsel

/-- C6.  When the workspace listing and the read succeed, the LLM's
reply `r` cleans to a whitespace-only string, the Edit executor
resolves with a Respond-kind action and performs no file-write call, so
the target file's content is unchanged. -/
theorem editExecutor_empty_output_no_write (env : Env) (req : AgentRequest) (w : World)
    (r : String)
    (hfiles : ∃ fs, env.getWorkspaceFiles = Except.ok fs)
    (hread : ∀ path, ∃ c, env.readFile path = Except.ok c)
    (hllm : ∀ p ctx, env.generateResponse p ctx = Except.ok r)
    (hclean : jsTrim (cleanCodeContent r) = "") :
    (executeEditAction env req w).1.map (fun a => a.type) = Except.ok "respond" ∧
    (executeEditAction env req w).2.writes = w.writes := by
  obtain ⟨sel, hsel⟩ := selectEditFile_ok env w hfiles
  unfold executeEditAction
  rw [bindM_run _ _ w w sel hsel]
  cases sel with
  | none => exact ⟨rfl, rfl⟩
  | some selFile =>
    obtain ⟨c, hc⟩ := hread selFile.value
    have hcond : hasContent (cleanCodeContent r) = false := by
      simp [hasContent, hclean]
    simp [bindM, liftExcept, pureM, Except.map, hc, hllm, hcond]

/-- An environment for the C6 witness: active editor on `a.ts`, read
succeeds, and the LLM returns whitespace only. -/
def envEmptyEdit : Env :=
  { envAllFail with
    activeEditor := some { fileName := "/ws/a.ts", text := "old" },
    readFile := fun _ => Except.ok "old",
    generateResponse := fun _ _ => Except.ok "   " }

theorem editExecutor_empty_output_no_write_witness :
    (executeEditAction envEmptyEdit witnessRequest witnessWorld).1.map (fun a => a.type) =
      Except.ok "respond" ∧
    (executeEditAction envEmptyEdit witnessRequest witnessWorld).2.writes =
      witnessWorld.writes :=
  editExecutor_empty_output_no_write envEmptyEdit witnessRequest witnessWorld "   "
    ⟨[], rfl⟩ (fun _ => ⟨"old", rfl⟩) (fun _ _ => rfl) (by decide)

/-- C7.  When the content search over workspace files returns zero
results, the Search executor resolves (it does not throw) with an
Action of kind `search` and informational content, and the only side
effect is the informational zero-result notification. -/
theorem searchExecutor_zero_results (env : Env) (req : AgentRequest) (w : World)
    (hzero : env.searchInFiles (extractSearchTerms req.prompt) = Except.ok []) :
    (executeSearchAction env req w).1 =
      Except.ok
        { type := "search", content := some ("Searched for: " ++ req.prompt),
          reasoning := some "Completed search operation" } ∧
    (executeSearchAction env req w).2 =
      { w with messages := w.messages ++ ["No results found for your search"] } := by
  constructor <;>
    simp [executeSearchAction, showProgress, bindM, liftExcept, pureM, showMessage, hzero]

theorem searchExecutor_zero_results_witness :
    (executeSearchAction envAllFail witnessRequest witnessWorld).1 =
      Except.ok
        { type := "search", content := some ("Searched for: " ++ witnessRequest.prompt),
          reasoning := some "Completed search operation" } ∧
    (executeSearchAction envAllFail witnessRequest witnessWorld).2 =
      { witnessWorld with messages := witnessWorld.messages ++
        ["No results found for your search"] } :=
  searchExecutor_zero_results envAllFail witnessRequest witnessWorld rfl

/-- C8.  The markdown-stripping function on a single fenced code block
removes the fences and the language tag and returns the trimmed inner
content. -/
theorem cleanCodeContent_strips_fenced_block :
    cleanCodeContent "```js\nconsole.log(1)\n```" = "console.log(1)" := by
  rfl

/-- C9 counterexample.  On prompt `"please describe something"` and
generated content `"const Foo = 1"`, stages (a) and (b) of the cascade
miss, the heuristic stage (c) matches (extension `js`, generic stem
`component`) — yet the function returns stem `Foo`: the detected
identifier (d) overrides the stem even though (c) matched, refuting the
`else`-cascade reading of (c) before (d). -/
theorem fileDetails_cascade_counterexample :
    determineFileDetails "please describe something" "const Foo = 1" =
      { fileName := "Foo", extension := "js" } ∧
    findCommentFile ("const Foo = 1").data = none ∧
    findPromptFile ("please describe something").data = none ∧
    heuristicFileDetails (jsToLower "please describe something") "const Foo = 1" =
      { fileName := "component", extension := "js" } ∧
    findComponentName ("const Foo = 1").data = some ['F', 'o', 'o'] := by
  refine ⟨?_, ?_, ?_, ?_, ?_⟩ <;> rfl

/-- C9 amended.  The filename cascade: (a) a filename in a content
comment wins outright; else (b) an explicit filename in the prompt
wins; else the heuristics (c) fix the extension and a generic stem and
a detected `class`/`function`/`const` identifier (d), whenever present,
overrides the stem (with `newFile.txt` standing when nothing
matches). -/
theorem fileDetails_cascade (prompt content : String) :
    (∀ cap, findCommentFile content.data = some cap →
      determineFileDetails prompt content = fileDetailsFromName (String.mk cap)) ∧
    (findCommentFile content.data = none →
      ∀ cap, findPromptFile prompt.data = some cap →
        determineFileDetails prompt content = fileDetailsFromName (String.mk cap)) ∧
    (findCommentFile content.data = none → findPromptFile prompt.data = none →
      (determineFileDetails prompt content).extension =
        (heuristicFileDetails (jsToLower prompt) content).extension ∧
      (∀ nm, findComponentName content.data = some nm →
        (determineFileDetails prompt content).fileName = String.mk nm) ∧
      (findComponentName content.data = none →
        (determineFileDetails prompt content).fileName =
          (heuristicFileDetails (jsToLower prompt) content).fileName)) := by
  refine ⟨?_, ?_, ?_⟩
  · intro cap hcap
    simp [determineFileDetails, hcap]
  · intro hnone cap hcap
    simp [determineFileDetails, hnone, hcap]
  · intro h1 h2
    refine ⟨?_, ?_, ?_⟩
    · cases hcomp : findComponentName content.data <;>
        simp [determineFileDetails, h1, h2, hcomp]
    · intro nm hnm
      simp [determineFileDetails, h1, h2, hnm]
    · intro hnm
      simp [determineFileDetails, h1, h2, hnm]

theorem fileDetails_cascade_witness :
    determineFileDetails "hello" "// notes.md" = fileDetailsFromName "notes.md" :=
  (fileDetails_cascade "hello" "// notes.md").1 ("notes.md".data) (by decide)

/-- C10.  `updateAgentConfig` changes exactly the configuration fields
named in the partial argument: every absent field keeps its previous
value, every present field takes the supplied value, and the session
state's `isActive`, `currentTask` and `workspaceFiles` are unchanged. -/
theorem updateConfig_frame (p : PartialAgentConfig) (s : AgentState) :
    (updateAgentConfig p s).isActive = s.isActive ∧
    (updateAgentConfig p s).currentTask = s.currentTask ∧
    (updateAgentConfig p s).workspaceFiles = s.workspaceFiles ∧
    (p.llmProvider = none →
      (updateAgentConfig p s).config.llmProvider = s.config.llmProvider) ∧
    (∀ v, p.llmProvider = some v → (updateAgentConfig p s).config.llmProvider = v) ∧
    (p.apiKey = none → (updateAgentConfig p s).config.apiKey = s.config.apiKey) ∧
    (∀ v, p.apiKey = some v → (updateAgentConfig p s).config.apiKey = v) ∧
    (p.model = none → (updateAgentConfig p s).config.model = s.config.model) ∧
    (∀ v, p.model = some v → (updateAgentConfig p s).config.model = v) ∧
    (p.temperature = none →
      (updateAgentConfig p s).config.temperature = s.config.temperature) ∧
    (∀ v, p.temperature = some v → (updateAgentConfig p s).config.temperature = v) ∧
    (p.maxTokens = none → (updateAgentConfig p s).config.maxTokens = s.config.maxTokens) ∧
    (∀ v, p.maxTokens = some v → (updateAgentConfig p s).config.maxTokens = v) ∧
    (p.apiEndpoint = none →
      (updateAgentConfig p s).config.apiEndpoint = s.config.apiEndpoint) ∧
    (∀ v, p.apiEndpoint = some v → (updateAgentConfig p s).config.apiEndpoint = v) := by
  refine ⟨rfl, rfl, rfl, ?_, ?_, ?_, ?_, ?_, ?_, ?_, ?_, ?_, ?_, ?_, ?_⟩ <;>
    first
      | (intro h; simp [updateAgentConfig, h])
      | (intro v h; simp [updateAgentConfig, h])

theorem updateConfig_frame_witness :
    (updateAgentConfig { model := some "gpt-4-turbo" } witnessWorld.agent).config.model =
      "gpt-4-turbo" ∧
    (updateAgentConfig { model := some "gpt-4-turbo" } witnessWorld.agent).config.apiKey =
      witnessWorld.agent.config.apiKey ∧
    (updateAgentConfig { model := some "gpt-4-turbo" } witnessWorld.agent).isActive =
      witnessWorld.agent.isActive := by
  obtain ⟨hact, _, _, _, _, hkey, _, _, hmod, _⟩ :=
    updateConfig_frame { model := some "gpt-4-turbo" } witnessWorld.agent
  exact ⟨hmod "gpt-4-turbo" rfl, hkey rfl, hact⟩

end GenAIAgent
